import Mathlib

/-!
Shallow embedding of the CommonUI plugin's state-bearing pieces:
 - the tab registry of `UCommonTabListWidgetBase`
   (src/commonui/Private/CommonTabListWidgetBase.cpp),
 - the activatable-widget lifecycle flags of `UCommonActivatableWidget`
   (src/commonui/Public/CommonActivatableWidget.h),
 - the input-method thrashing debounce of `UCommonInputSubsystem`
   (src/CommonInput/Public/CommonInputSubsystem.h).

`FName` is modelled as `Nat`, with `NAME_None = 0`.  Engine pointers
(`UCommonButtonBase*`, `UWidget*`, `TSubclassOf<...>`) are modelled as
`Option Nat`: `none` is a null pointer / invalid class.  `TMap` is modelled
as an association list in insertion order, which matches `TMap`'s
add-at-end/remove-by-key behaviour on the unique-key states the widget
maintains.  Multicast delegate broadcasts are recorded in an event log.
-/

namespace CommonUI

/-- `FName`, modelled as a natural number. -/
abbrev FName := Nat

/-- The engine's `NAME_None`. -/
def NAME_None : FName := 0

/-! ## UCommonTabListWidgetBase (CommonTabListWidgetBase.cpp) -/

/-- `FCommonRegisteredTabInfo`: the per-tab record stored in
`RegisteredTabsByID`.  `TabIndex` is `int32` in the source, so `Int` here. -/
structure FCommonRegisteredTabInfo where
  TabIndex : Int
  TabButton : Option Nat
  ContentInstance : Option Nat
deriving DecidableEq, Repr

/-- The delegate broadcasts of the tab list that the claims mention
(`OnTabButtonCreation` / `HandleTabCreation` and
`OnTabButtonRemoval` / `HandleTabRemoval`), recorded as events. -/
inductive TabEvent where
  | Created (TabNameID : FName)
  | Removed (TabNameID : FName)
deriving DecidableEq, Repr

/-- The state of a `UCommonTabListWidgetBase` that the embedded operations
touch.  `hasTabButtonGroup` stands for `TabButtonGroup != nullptr`
(created in `NativeOnInitialized`), `hasUISubsystem` for
`GetUISubsystem() != nullptr`. -/
structure TabListState where
  RegisteredTabsByID : List (FName × FCommonRegisteredTabInfo)
  ActiveTabID : FName
  bIsListeningForInput : Bool
  hasTabButtonGroup : Bool
  hasUISubsystem : Bool
  Events : List TabEvent
deriving DecidableEq, Repr

namespace TabListState

/-- `RegisteredTabsByID.Contains(TabNameID)`. -/
def Contains (s : TabListState) (TabNameID : FName) : Bool :=
  s.RegisteredTabsByID.any (fun p => p.1 == TabNameID)

/-- The keys of the registry, in insertion order. -/
def tabKeys (s : TabListState) : List FName :=
  s.RegisteredTabsByID.map Prod.fst

/-- The `TabIndex` fields of the registry, in insertion order. -/
def tabIndices (s : TabListState) : List Int :=
  s.RegisteredTabsByID.map (fun p => p.2.TabIndex)

end TabListState

/-- State of a freshly constructed-and-initialized tab list: the
constructor sets `RegisteredTabsByID` empty, `ActiveTabID = NAME_None` and
`bIsListeningForInput = false`; `NativeOnInitialized` creates the button
group. -/
def initialTabListState : TabListState :=
  { RegisteredTabsByID := []
    ActiveTabID := NAME_None
    bIsListeningForInput := false
    hasTabButtonGroup := true
    hasUISubsystem := true
    Events := [] }

/-- `UCommonTabListWidgetBase::RegisterTab` (CommonTabListWidgetBase.cpp,
lines 39-88).  Both `ensure` guards (already-registered ID, invalid button
class) clear `AreParametersValid`, causing `return false` with no state
change.  On success a new `FCommonRegisteredTabInfo` with
`TabIndex = RegisteredTabsByID.Num()` is added under `TabNameID` and the
creation callbacks fire.  The engine-side `CreateWidget` call is modelled
as succeeding. -/
def RegisterTab (s : TabListState) (TabNameID : FName)
    (ButtonWidgetType : Option Nat) (ContentWidget : Option Nat) :
    Bool × TabListState :=
  if s.Contains TabNameID || ButtonWidgetType.isNone then
    (false, s)
  else
    let NewTabInfo : FCommonRegisteredTabInfo :=
      { TabIndex := (s.RegisteredTabsByID.length : Int)
        TabButton := ButtonWidgetType
        ContentInstance := ContentWidget }
    (true,
      { s with
          RegisteredTabsByID := s.RegisteredTabsByID ++ [(TabNameID, NewTabInfo)]
          Events := s.Events ++ [TabEvent.Created TabNameID] })

/-- `UCommonTabListWidgetBase::RemoveTab` (lines 91-112): `return false`
if the ID is not registered, otherwise remove the entry and fire the
removal callbacks. -/
def RemoveTab (s : TabListState) (TabNameID : FName) : Bool × TabListState :=
  match s.RegisteredTabsByID.find? (fun p => p.1 == TabNameID) with
  | none => (false, s)
  | some _ =>
    (true,
      { s with
          RegisteredTabsByID :=
            s.RegisteredTabsByID.filter (fun p => !(p.1 == TabNameID))
          Events := s.Events ++ [TabEvent.Removed TabNameID] })

/-- Iterated `RemoveTab` over a list of IDs. -/
def runRemoves (s : TabListState) (ks : List FName) : TabListState :=
  ks.foldl (fun st k => (RemoveTab st k).2) s

/-- `UCommonTabListWidgetBase::RemoveAllTabs` (lines 114-120): iterate the
registry and call `RemoveTab` on each key. -/
def RemoveAllTabs (s : TabListState) : TabListState :=
  runRemoves s s.tabKeys

/-- `UCommonTabListWidgetBase::GetTabCount` (lines 122-126). -/
def GetTabCount (s : TabListState) : Nat :=
  s.RegisteredTabsByID.length

/-- `UCommonTabListWidgetBase::SetListeningForInput` (lines 128-147):
early-out when asked to listen before the button group exists, or when the
UI subsystem is gone; otherwise update the flag (and the action bindings)
when it changes. -/
def SetListeningForInput (s : TabListState) (bShouldListen : Bool) :
    TabListState :=
  if bShouldListen && !s.hasTabButtonGroup then s
  else if !s.hasUISubsystem then s
  else if bShouldListen != s.bIsListeningForInput then
    { s with bIsListeningForInput := bShouldListen }
  else s

/-- `UCommonTabListWidgetBase::GetTabIdAtIndex` (lines 194-211): `FoundId`
starts as `NAME_None`; the `ensure(Index < Num)` guard only checks the
upper bound; inside it the first registered tab whose `TabIndex` equals
`Index` is returned. -/
def GetTabIdAtIndex (s : TabListState) (Index : Int) : FName :=
  if Index < (s.RegisteredTabsByID.length : Int) then
    match s.RegisteredTabsByID.find? (fun p => p.2.TabIndex == Index) with
    | some p => p.1
    | none => NAME_None
  else NAME_None

/-- `UCommonTabListWidgetBase::NativeDestruct` (lines 317-326): stop
listening for input, clear `ActiveTabID`, remove every tab.
(`TabButtonGroup->RemoveAll()` acts on the engine-side button group only.) -/
def NativeDestruct (s : TabListState) : TabListState :=
  let s1 := SetListeningForInput s false
  let s2 := { s1 with ActiveTabID := NAME_None }
  RemoveAllTabs s2

/-- A registry operation: one `RegisterTab` or `RemoveTab` call. -/
inductive TabOp where
  | Reg (TabNameID : FName) (ButtonWidgetType : Option Nat)
        (ContentWidget : Option Nat)
  | Rem (TabNameID : FName)
deriving DecidableEq, Repr

/-- Apply one registry operation (discarding the returned `bool`). -/
def applyTabOp (s : TabListState) (op : TabOp) : TabListState :=
  match op with
  | TabOp.Reg id btn content => (RegisterTab s id btn content).2
  | TabOp.Rem id => (RemoveTab s id).2

/-- Run a sequence of registry operations. -/
def runTabOps (s : TabListState) (ops : List TabOp) : TabListState :=
  ops.foldl applyTabOp s

/-- A tab-list state reachable from the freshly initialized widget by some
sequence of `RegisterTab` / `RemoveTab` calls. -/
def TabReachable (s : TabListState) : Prop :=
  ∃ ops : List TabOp, runTabOps initialTabListState ops = s

/-- `true` when the remaining operations are all `RemoveTab` calls. -/
def remsOnly : List TabOp → Bool
  | [] => true
  | TabOp.Rem _ :: rest => remsOnly rest
  | TabOp.Reg _ _ _ :: _ => false

/-- `true` when every `RegisterTab` in the sequence precedes every
`RemoveTab` (no registration happens after a removal). -/
def regsThenRems : List TabOp → Bool
  | [] => true
  | TabOp.Reg _ _ _ :: rest => regsThenRems rest
  | TabOp.Rem _ :: rest => remsOnly rest

/-! ## UCommonActivatableWidget (CommonActivatableWidget.h)

Only the header of this class is in the sources; the flag declarations,
their default values and the inline accessors below are taken from it
directly.  The bodies of `ActivateWidget` / `DeactivateWidget` /
`NativeConstruct` / `NativeDestruct` and the back-action dispatch live in a
`.cpp` file that is not in the sources and are modelled from the spec and
the header's documentation comments. -/

/-- The activation-relevant flags of `UCommonActivatableWidget`, with the
default values declared in CommonActivatableWidget.h (`bIsActive = false`,
`bAutoActivate = false`, `bIsBackHandler = false`,
`bSupportsActivationFocus = true`, `bIsModal = false`,
`bAutoRestoreFocus = false`). -/
structure ActivatableWidget where
  bIsActive : Bool := false
  bAutoActivate : Bool := false
  bIsBackHandler : Bool := false
  bSupportsActivationFocus : Bool := true
  bIsModal : Bool := false
  bAutoRestoreFocus : Bool := false
deriving DecidableEq, Repr

namespace ActivatableWidget

/-- `IsActivated` (inline in the header). -/
def IsActivated (w : ActivatableWidget) : Bool := w.bIsActive

/-- `IsModal` (inline in the header). -/
def IsModal (w : ActivatableWidget) : Bool := w.bIsModal

/-- `SupportsActivationFocus` (inline in the header). -/
def SupportsActivationFocus (w : ActivatableWidget) : Bool :=
  w.bSupportsActivationFocus

/-- `AutoRestoresFocus` (inline in the header):
`return bSupportsActivationFocus && bAutoRestoreFocus;`. -/
def AutoRestoresFocus (w : ActivatableWidget) : Bool :=
  w.bSupportsActivationFocus && w.bAutoRestoreFocus

/-- Modelled from the spec: `ActivateWidget` (body not in the sources)
makes the widget active; activation can be toggled arbitrarily between
construction and destruction. -/
def ActivateWidget (w : ActivatableWidget) : ActivatableWidget :=
  { w with bIsActive := true }

/-- Modelled from the spec: `DeactivateWidget` (body not in the sources)
makes the widget inactive. -/
def DeactivateWidget (w : ActivatableWidget) : ActivatableWidget :=
  { w with bIsActive := false }

/-- Modelled from the spec: `NativeConstruct` (body not in the sources).
Per the header documentation, an activatable widget is not automatically
activated upon construction unless auto-activate is enabled
(`bAutoActivate`, "True to automatically activate upon construction"). -/
def NativeConstruct (w : ActivatableWidget) : ActivatableWidget :=
  if w.bAutoActivate then ActivateWidget w else w

/-- Modelled from the spec: `NativeDestruct` (body not in the sources).
Per the header documentation, removing an activatable widget from the UI
(i.e. triggering `Destruct()`) always deactivates it, even if the
`UWidget` is not destroyed. -/
def NativeDestruct (w : ActivatableWidget) : ActivatableWidget :=
  DeactivateWidget w

/-- Modelled from the spec: delivery of a back action (the dispatch and
`HandleBackAction` bodies are not in the sources).  Per the header, a
widget receives back actions only when `bIsBackHandler` is set ("True to
receive Back actions automatically"), and a back handler "is automatically
deactivated (but not destroyed) when it receives a back action".
`none` means the action was not delivered to this widget. -/
def routeBackAction (w : ActivatableWidget) : Option ActivatableWidget :=
  if w.bIsBackHandler then some (DeactivateWidget w) else none

end ActivatableWidget

/-! ## The leaf-to-root resolution walk and modal blocking

The activatable widgets form a tree; input and focus resolution walk the
chain from a leaf node toward the root.  A chain is written leaf first, so
the tail of the list holds the ancestors of the head.  The walk itself
lives outside the sources (in the action router) and is modelled from the
spec. -/

/-- One node of an ancestor chain, with the two queries the walk consults
(`GetDesiredInputConfig`, `GetDesiredFocusTarget`; configs and targets are
opaque values modelled as `Nat`). -/
structure RouteNode where
  bIsActive : Bool
  bIsModal : Bool
  DesiredInputConfig : Option Nat
  DesiredFocusTarget : Option Nat
deriving DecidableEq, Repr

/-- Modelled from the spec: the leaf-to-root resolution walk (the action
router that performs it is not in the sources).  A node's answer `f n` is
consulted only when the node can receive input, i.e. the node and all of
its parents are active (CommonActivatableWidget.h, lines 54-58); the first
non-null answer along the walk wins. -/
def resolveDesired (f : RouteNode → Option Nat) :
    List RouteNode → Option Nat
  | [] => none
  | n :: rest =>
    if n.bIsActive && rest.all (fun a => a.bIsActive) then
      match f n with
      | some v => some v
      | none => resolveDesired f rest
    else resolveDesired f rest

/-- The maximal suffix of the chain (nearest the root) in which every
node, parents included, is active: exactly the nodes that can receive
input. -/
def activeSuffix : List RouteNode → List RouteNode
  | [] => []
  | n :: rest =>
    if n.bIsActive && rest.all (fun a => a.bIsActive) then n :: rest
    else activeSuffix rest

/-- The resolved input configuration for a chain. -/
def resolveInputConfig (chain : List RouteNode) : Option Nat :=
  resolveDesired (fun n => n.DesiredInputConfig) chain

/-- The resolved focus target for a chain. -/
def resolveFocusTarget (chain : List RouteNode) : Option Nat :=
  resolveDesired (fun n => n.DesiredFocusTarget) chain

/-- Modelled from the spec: the nodes an input-routing step visits,
leaf first (the action router is not in the sources).  Per
CommonActivatableWidget.h (lines 137-142), an active node with `bIsModal`
is "treated as a root node for input routing, regardless of its actual
parentage", preventing all action processing by its parents; the walk
therefore stops at the first active modal node. -/
def routeReach : List RouteNode → List RouteNode
  | [] => []
  | n :: rest =>
    if n.bIsActive && n.bIsModal then [n]
    else n :: routeReach rest

/-! ## UCommonInputSubsystem (CommonInputSubsystem.h)

The header declares the thrashing-detection state
(`NumberOfInputMethodChangesRecently`, `LastInputMethodChangeTime`,
`LastTimeInputMethodThrashingBegan`), `CheckForInputMethodThrashing` and
`LockInput`; their bodies are not in the sources and are modelled from the
spec: count input-method transitions in a sliding time window; if the
count exceeds a fixed threshold within the window, force-lock the current
input type until the window elapses; once the window elapses without
further thrashing, release the lock.  Time is modelled as `Nat`. -/

/-- `ECommonInputType`. -/
inductive ECommonInputType where
  | MouseAndKeyboard
  | Gamepad
  | Touch
deriving DecidableEq, Repr

/-- Modelled from the spec: the fixed length of the sliding window (the
concrete value is not in the sources). -/
def InputMethodThrashingWindow : Nat := 3

/-- Modelled from the spec: the fixed transition-count threshold (the
concrete value is not in the sources). -/
def InputMethodThrashingLimit : Nat := 5

/-- The thrashing-detection state of `UCommonInputSubsystem`
(CommonInputSubsystem.h, lines 104-119), plus a flag recording whether the
thrashing force-lock is engaged (in the source the engaged lock is the
`CurrentInputLock` that `LockInput` consults). -/
structure InputSubsystemState where
  CurrentInputType : ECommonInputType
  NumberOfInputMethodChangesRecently : Nat
  LastInputMethodChangeTime : Nat
  LastTimeInputMethodThrashingBegan : Nat
  bInputMethodThrashing : Bool
deriving DecidableEq, Repr

/-- Modelled from the spec: `CheckForInputMethodThrashing` (body not in
the sources).  Counts the transition into the current sliding window
(restarting the count when the window since the last change has elapsed),
begins the force-lock when the count exceeds the threshold, keeps it while
the window since thrashing began has not elapsed, and releases it once
that window elapses without further thrashing.  Returns `true` when the
transition must be suppressed. -/
def CheckForInputMethodThrashing (s : InputSubsystemState) (now : Nat) :
    Bool × InputSubsystemState :=
  let count :=
    (if s.LastInputMethodChangeTime + InputMethodThrashingWindow ≤ now
     then 0 else s.NumberOfInputMethodChangesRecently) + 1
  let s1 := { s with
                NumberOfInputMethodChangesRecently := count
                LastInputMethodChangeTime := now }
  if InputMethodThrashingLimit < count then
    (true, { s1 with
               bInputMethodThrashing := true
               LastTimeInputMethodThrashingBegan := now })
  else if s1.bInputMethodThrashing then
    if now < s1.LastTimeInputMethodThrashingBegan + InputMethodThrashingWindow
    then (true, s1)
    else (false, { s1 with bInputMethodThrashing := false })
  else (false, s1)

/-- Modelled from the spec: processing one input-type change
(`SetCurrentInputType`; body not in the sources).  A change to the same
type is a no-op; otherwise the thrashing check runs and, when it reports
thrashing, the change is suppressed (the current input type stays
force-locked). -/
def SetCurrentInputType (s : InputSubsystemState) (now : Nat)
    (NewInputType : ECommonInputType) : InputSubsystemState :=
  if NewInputType = s.CurrentInputType then s
  else
    let r := CheckForInputMethodThrashing s now
    if r.1 then r.2
    else { r.2 with CurrentInputType := NewInputType }

/-! ## Theorems -/

/-- C2: `RegisterTab` is atomic on failure: if the ID is already
registered or the button class is invalid (null), it returns `false` and
leaves the whole state unchanged; otherwise it returns `true` and appends
exactly one entry under the ID with `TabIndex` equal to the number of tabs
registered before the call. -/
theorem registerTab_atomic (s : TabListState) (TabNameID : FName)
    (ButtonWidgetType : Option Nat) (ContentWidget : Option Nat) :
    ((s.Contains TabNameID = true ∨ ButtonWidgetType = none) →
       RegisterTab s TabNameID ButtonWidgetType ContentWidget = (false, s)) ∧
    (s.Contains TabNameID = false → ButtonWidgetType ≠ none →
       (RegisterTab s TabNameID ButtonWidgetType ContentWidget).1 = true ∧
       (RegisterTab s TabNameID ButtonWidgetType
           ContentWidget).2.RegisteredTabsByID =
         s.RegisteredTabsByID ++
           [(TabNameID,
             { TabIndex := (s.RegisteredTabsByID.length : Int)
               TabButton := ButtonWidgetType
               ContentInstance := ContentWidget })]) := by
  constructor
  · rintro (h | h)
    · simp [RegisterTab, h]
    · simp [RegisterTab, h]
  · intro h1 h2
    have hb : ButtonWidgetType.isNone = false := by
      cases ButtonWidgetType
      · exact absurd rfl h2
      · rfl
    simp [RegisterTab, h1, hb]

/-- Witness for `registerTab_atomic` at concrete inputs: registering tab 7
on the fresh widget succeeds, and registering with a null button class
fails without touching the state. -/
theorem registerTab_atomic_witness :
    (RegisterTab initialTabListState 7 (some 1) none).1 = true ∧
    RegisterTab initialTabListState 7 none none =
      (false, initialTabListState) :=
  ⟨((registerTab_atomic initialTabListState 7 (some 1) none).2
      (by decide) (by decide)).1,
   (registerTab_atomic initialTabListState 7 none none).1 (Or.inr rfl)⟩

/-- A freshly constructed activatable widget, with the field defaults
declared in CommonActivatableWidget.h. -/
def defaultActivatableWidget : ActivatableWidget := {}

/-- C4: activatable-widget lifecycle: a widget is constructed with
`bIsActive = false`; `NativeConstruct` on an inert widget makes it active
exactly when `bAutoActivate` is set; `NativeDestruct` always deactivates
and changes nothing else (the object is not destroyed); and
`ActivateWidget` / `DeactivateWidget` can toggle the active state
arbitrarily in between. -/
theorem activatableWidget_lifecycle (w : ActivatableWidget) :
    defaultActivatableWidget.bIsActive = false ∧
    (w.bIsActive = false →
      w.NativeConstruct.bIsActive = w.bAutoActivate) ∧
    w.NativeDestruct = { w with bIsActive := false } ∧
    w.ActivateWidget.bIsActive = true ∧
    w.DeactivateWidget.bIsActive = false := by
  refine ⟨rfl, ?_, rfl, rfl, rfl⟩
  intro h
  cases hb : w.bAutoActivate <;>
    simp [ActivatableWidget.NativeConstruct, ActivatableWidget.ActivateWidget,
      hb, h]

/-- Witness for `activatableWidget_lifecycle` at a concrete widget with
`bAutoActivate` set: construction activates it. -/
theorem activatableWidget_lifecycle_witness :
    ({ bAutoActivate := true } : ActivatableWidget).NativeConstruct.bIsActive
      = ({ bAutoActivate := true } : ActivatableWidget).bAutoActivate :=
  (activatableWidget_lifecycle { bAutoActivate := true }).2.1 rfl

/-- C7: a back action delivered to a widget with `bIsBackHandler` set
deactivates it without destroying it (the result is the same widget record
with only `bIsActive` cleared); a widget with `bIsBackHandler = false`
never receives back actions. -/
theorem backAction_deactivates_handler (w : ActivatableWidget) :
    (w.bIsBackHandler = true →
       w.routeBackAction = some { w with bIsActive := false }) ∧
    (w.bIsBackHandler = false → w.routeBackAction = none) := by
  constructor <;> intro h <;>
    simp [ActivatableWidget.routeBackAction,
      ActivatableWidget.DeactivateWidget, h]

/-- Witness for `backAction_deactivates_handler` at concrete widgets: an
active back handler is deactivated; a non-handler receives nothing. -/
theorem backAction_deactivates_handler_witness :
    ({ bIsActive := true, bIsBackHandler := true } :
        ActivatableWidget).routeBackAction =
      some { bIsActive := false, bIsBackHandler := true } ∧
    ({ bIsActive := true } : ActivatableWidget).routeBackAction = none :=
  ⟨(backAction_deactivates_handler
      { bIsActive := true, bIsBackHandler := true }).1 rfl,
   (backAction_deactivates_handler { bIsActive := true }).2 rfl⟩

/-- C9: `AutoRestoresFocus` is the conjunction of
`bSupportsActivationFocus` and `bAutoRestoreFocus`, so it can only return
`true` when `SupportsActivationFocus` does; setting `bAutoRestoreFocus`
alone never enables focus restoration. -/
theorem autoRestoresFocus_needs_supports (w : ActivatableWidget) :
    w.AutoRestoresFocus =
      (w.SupportsActivationFocus && w.bAutoRestoreFocus) ∧
    (w.SupportsActivationFocus = false → w.AutoRestoresFocus = false) := by
  refine ⟨rfl, ?_⟩
  intro h
  simp only [ActivatableWidget.SupportsActivationFocus] at h
  simp [ActivatableWidget.AutoRestoresFocus, h]

/-- Witness for `autoRestoresFocus_needs_supports` at a concrete widget
with `bAutoRestoreFocus` set but `bSupportsActivationFocus` cleared. -/
theorem autoRestoresFocus_needs_supports_witness :
    ({ bSupportsActivationFocus := false, bAutoRestoreFocus := true } :
        ActivatableWidget).AutoRestoresFocus = false :=
  (autoRestoresFocus_needs_supports
    { bSupportsActivationFocus := false, bAutoRestoreFocus := true }).2 rfl

/-! ### Invariants of the tab registry -/

/-- A property preserved by every registry operation holds along any run. -/
theorem runTabOps_inv (P : TabListState → Prop)
    (hstep : ∀ s op, P s → P (applyTabOp s op)) :
    ∀ (ops : List TabOp) (s : TabListState), P s → P (runTabOps s ops) := by
  intro ops
  induction ops with
  | nil => intro s h; exact h
  | cons op ops ih => intro s h; exact ih _ (hstep s op h)

theorem contains_eq_false_iff (s : TabListState) (k : FName) :
    s.Contains k = false ↔ k ∉ s.tabKeys := by
  simp only [TabListState.Contains, TabListState.tabKeys]
  simp [List.any_eq_true]
  constructor
  · intro h x hx
    exact h k x hx rfl
  · intro h a b hab ha
    subst ha
    exact h b hab

/-- One registry operation keeps the registered IDs distinct. -/
theorem tabKeys_nodup_step (s : TabListState) (op : TabOp)
    (h : s.tabKeys.Nodup) : (applyTabOp s op).tabKeys.Nodup := by
  cases op with
  | Reg id btn content =>
    show (RegisterTab s id btn content).2.tabKeys.Nodup
    unfold RegisterTab
    by_cases hc : (s.Contains id || btn.isNone) = true
    · rw [if_pos hc]; exact h
    · have hcon : s.Contains id = false := by
        cases hcs : s.Contains id
        · rfl
        · exact absurd (by simp [hcs]) hc
      have hid : id ∉ s.tabKeys := (contains_eq_false_iff s id).mp hcon
      rw [if_neg hc]
      simp only [TabListState.tabKeys, List.map_append, List.map_cons,
        List.map_nil] at h ⊢
      rw [List.nodup_append]
      exact ⟨h, List.nodup_singleton _, by
        simpa [List.disjoint_singleton, TabListState.tabKeys] using hid⟩
  | Rem id =>
    show (RemoveTab s id).2.tabKeys.Nodup
    unfold RemoveTab
    cases hf : s.RegisteredTabsByID.find? (fun p => p.1 == id) with
    | none => exact h
    | some p =>
      simp only [TabListState.tabKeys] at h ⊢
      exact h.sublist ((s.RegisteredTabsByID.filter_sublist).map Prod.fst)

/-- One registry operation keeps every stored `TabIndex` nonnegative. -/
theorem tabIndex_nonneg_step (s : TabListState) (op : TabOp)
    (h : ∀ p ∈ s.RegisteredTabsByID, 0 ≤ p.2.TabIndex) :
    ∀ p ∈ (applyTabOp s op).RegisteredTabsByID, 0 ≤ p.2.TabIndex := by
  cases op with
  | Reg id btn content =>
    show ∀ p ∈ (RegisterTab s id btn content).2.RegisteredTabsByID, _
    unfold RegisterTab
    by_cases hc : (s.Contains id || btn.isNone) = true
    · simpa [hc] using h
    · simp only [hc, if_neg, Bool.not_eq_true]
      intro p hp
      rcases List.mem_append.mp hp with hp | hp
      · exact h p hp
      · simp only [List.mem_singleton] at hp
        subst hp
        exact Int.ofNat_nonneg _
  | Rem id =>
    show ∀ p ∈ (RemoveTab s id).2.RegisteredTabsByID, _
    unfold RemoveTab
    cases hf : s.RegisteredTabsByID.find? (fun p => p.1 == id) with
    | none => exact h
    | some q =>
      intro p hp
      exact h p (List.mem_of_mem_filter hp)

/-- In every reachable state the registered IDs are distinct. -/
theorem tabReachable_keys_nodup (s : TabListState) (h : TabReachable s) :
    s.tabKeys.Nodup := by
  obtain ⟨ops, rfl⟩ := h
  exact runTabOps_inv _ tabKeys_nodup_step ops initialTabListState
    (by simp [initialTabListState, TabListState.tabKeys])

/-- In every reachable state every stored `TabIndex` is nonnegative. -/
theorem tabReachable_indices_nonneg (s : TabListState) (h : TabReachable s) :
    ∀ p ∈ s.RegisteredTabsByID, 0 ≤ p.2.TabIndex := by
  obtain ⟨ops, rfl⟩ := h
  exact runTabOps_inv _ tabIndex_nonneg_step ops initialTabListState
    (by simp [initialTabListState])

/-- C10: `GetTabIdAtIndex` returns `NAME_None` whenever no currently
registered tab stores the requested `TabIndex` — in particular at every
negative index in a reachable state (the source guard only checks the
upper bound) and at any in-range index left unoccupied by removals.  The
call reads the registry only. -/
theorem getTabIdAtIndex_none_when_unoccupied (s : TabListState) (Index : Int)
    (h : (∀ p ∈ s.RegisteredTabsByID, p.2.TabIndex ≠ Index) ∨
         (Index < 0 ∧ TabReachable s)) :
    GetTabIdAtIndex s Index = NAME_None := by
  have hnone : ∀ p ∈ s.RegisteredTabsByID, p.2.TabIndex ≠ Index := by
    rcases h with h | ⟨hneg, hreach⟩
    · exact h
    · intro p hp
      have := tabReachable_indices_nonneg s hreach p hp
      omega
  have hfind : s.RegisteredTabsByID.find? (fun p => p.2.TabIndex == Index)
      = none := by
    rw [List.find?_eq_none]
    intro p hp
    simpa using hnone p hp
  unfold GetTabIdAtIndex
  rw [hfind]
  split <;> rfl

/-- Witness for `getTabIdAtIndex_none_when_unoccupied`: after registering
tab 1 the widget answers `NAME_None` at index `-1` (the guard accepts the
negative index but no tab occupies it). -/
theorem getTabIdAtIndex_none_when_unoccupied_witness :
    GetTabIdAtIndex
      (runTabOps initialTabListState [TabOp.Reg 1 (some 1) none]) (-1)
      = NAME_None :=
  getTabIdAtIndex_none_when_unoccupied _ (-1)
    (Or.inr ⟨by decide, ⟨[TabOp.Reg 1 (some 1) none], rfl⟩⟩)

/-! ### Registration order of `TabIndex` -/

/-- As long as no tab has been removed, the stored indices are exactly
`0, 1, ..., n-1` in registration order; `RegisterTab` preserves this. -/
theorem tabIndices_range_reg (s : TabListState) (id : FName)
    (btn content : Option Nat)
    (h : s.tabIndices =
      (List.range s.RegisteredTabsByID.length).map Int.ofNat) :
    (RegisterTab s id btn content).2.tabIndices =
      (List.range
        (RegisterTab s id btn content).2.RegisteredTabsByID.length).map
        Int.ofNat := by
  unfold RegisterTab
  by_cases hc : (s.Contains id || btn.isNone) = true
  · rw [if_pos hc]; exact h
  · rw [if_neg hc]
    simp only [TabListState.tabIndices, List.map_append, List.map_cons,
      List.map_nil, List.length_append, List.length_cons, List.length_nil]
    rw [List.range_succ, List.map_append]
    simp only [TabListState.tabIndices] at h
    rw [h]
    rfl

/-- `RemoveTab` keeps the stored indices strictly increasing in
registration order (it removes entries without renumbering). -/
theorem tabIndices_pairwise_rem (s : TabListState) (id : FName)
    (h : List.Pairwise (· < ·) s.tabIndices) :
    List.Pairwise (· < ·) (RemoveTab s id).2.tabIndices := by
  unfold RemoveTab
  cases hf : s.RegisteredTabsByID.find? (fun p => p.1 == id) with
  | none => exact h
  | some q =>
    simp only [TabListState.tabIndices] at h ⊢
    exact h.sublist
      ((s.RegisteredTabsByID.filter_sublist).map (fun p => p.2.TabIndex))

/-- Running removals only preserves strictly increasing indices. -/
theorem remsOnly_pairwise (ops : List TabOp) :
    ∀ s : TabListState, remsOnly ops = true →
      List.Pairwise (· < ·) s.tabIndices →
      List.Pairwise (· < ·) (runTabOps s ops).tabIndices := by
  induction ops with
  | nil => intro s _ h; exact h
  | cons op ops ih =>
    intro s hops h
    cases op with
    | Reg id btn content => exact absurd hops (by simp [remsOnly])
    | Rem id =>
      exact ih _ (by simpa [remsOnly] using hops)
        (tabIndices_pairwise_rem s id h)

/-- Running registrations first and removals second, from a state whose
indices are `0..n-1`, yields strictly increasing indices. -/
theorem regsThenRems_pairwise (ops : List TabOp) :
    ∀ s : TabListState, regsThenRems ops = true →
      s.tabIndices =
        (List.range s.RegisteredTabsByID.length).map Int.ofNat →
      List.Pairwise (· < ·) (runTabOps s ops).tabIndices := by
  induction ops with
  | nil =>
    intro s _ h
    show List.Pairwise (· < ·) s.tabIndices
    rw [h]
    exact (List.pairwise_lt_range _).map _ (fun a b hab => Int.ofNat_lt.mpr hab)
  | cons op ops ih =>
    intro s hops h
    cases op with
    | Reg id btn content =>
      exact ih _ (by simpa [regsThenRems] using hops)
        (tabIndices_range_reg s id btn content h)
    | Rem id =>
      have hpw : List.Pairwise (· < ·) s.tabIndices := by
        rw [h]
        exact (List.pairwise_lt_range _).map _
          (fun a b hab => Int.ofNat_lt.mpr hab)
      exact remsOnly_pairwise ops _ (by simpa [regsThenRems] using hops)
        (tabIndices_pairwise_rem s id hpw)

/-- C1 (amended): in every reachable state of the tab registry the
registered identifiers are distinct; and as long as no `RegisterTab`
follows a `RemoveTab`, the stored `TabIndex` values are strictly
increasing in registration order.  (After a removal followed by a new
registration the indices may repeat — see the counterexample.) -/
theorem tabRegistry_unique_and_ordered (ops : List TabOp) :
    (runTabOps initialTabListState ops).tabKeys.Nodup ∧
    (regsThenRems ops = true →
      List.Pairwise (· < ·) (runTabOps initialTabListState ops).tabIndices) := by
  constructor
  · exact runTabOps_inv _ tabKeys_nodup_step ops initialTabListState
      (by simp [initialTabListState, TabListState.tabKeys])
  · intro h
    exact regsThenRems_pairwise ops initialTabListState h
      (by simp [initialTabListState, TabListState.tabIndices])

/-- Witness for `tabRegistry_unique_and_ordered` on a concrete run that
registers two tabs and removes one. -/
theorem tabRegistry_unique_and_ordered_witness :
    (runTabOps initialTabListState
      [TabOp.Reg 1 (some 1) none, TabOp.Reg 2 (some 1) none,
       TabOp.Rem 1]).tabKeys.Nodup ∧
    List.Pairwise (· < ·)
      (runTabOps initialTabListState
        [TabOp.Reg 1 (some 1) none, TabOp.Reg 2 (some 1) none,
         TabOp.Rem 1]).tabIndices :=
  ⟨(tabRegistry_unique_and_ordered
      [TabOp.Reg 1 (some 1) none, TabOp.Reg 2 (some 1) none,
       TabOp.Rem 1]).1,
   (tabRegistry_unique_and_ordered
      [TabOp.Reg 1 (some 1) none, TabOp.Reg 2 (some 1) none,
       TabOp.Rem 1]).2 (by decide)⟩

/-- C1 counterexample: the claim as stated fails on the code.  After
`RegisterTab 1; RegisterTab 2; RemoveTab 1; RegisterTab 3` — a reachable
state — tabs 2 and 3 both store `TabIndex = 1` (`RemoveTab` does not
renumber and `RegisterTab` reuses `Num()`), so the indices do not order
the registered tabs by registration order. -/
theorem tabRegistry_order_counterexample :
    ¬ ((runTabOps initialTabListState
          [TabOp.Reg 1 (some 1) none, TabOp.Reg 2 (some 1) none,
           TabOp.Rem 1, TabOp.Reg 3 (some 1) none]).tabKeys.Nodup ∧
       List.Pairwise (· < ·)
         (runTabOps initialTabListState
           [TabOp.Reg 1 (some 1) none, TabOp.Reg 2 (some 1) none,
            TabOp.Rem 1, TabOp.Reg 3 (some 1) none]).tabIndices) := by
  decide

/-! ### Teardown of the tab list -/

theorem removeTab_registry (s : TabListState) (k : FName) :
    (RemoveTab s k).2.RegisteredTabsByID =
      s.RegisteredTabsByID.filter (fun p => !(p.1 == k)) := by
  unfold RemoveTab
  cases hf : s.RegisteredTabsByID.find? (fun p => p.1 == k) with
  | none =>
    have : ∀ p ∈ s.RegisteredTabsByID, (!(p.1 == k)) = true := by
      intro p hp
      have := List.find?_eq_none.mp hf p hp
      simpa using this
    exact (List.filter_eq_self.mpr this).symm
  | some q => rfl

theorem removeTab_activeTabID (s : TabListState) (k : FName) :
    (RemoveTab s k).2.ActiveTabID = s.ActiveTabID := by
  unfold RemoveTab
  cases hf : s.RegisteredTabsByID.find? (fun p => p.1 == k) <;> rfl

theorem removeTab_listening (s : TabListState) (k : FName) :
    (RemoveTab s k).2.bIsListeningForInput = s.bIsListeningForInput := by
  unfold RemoveTab
  cases hf : s.RegisteredTabsByID.find? (fun p => p.1 == k) <;> rfl

theorem removeTab_events_mono (s : TabListState) (k : FName)
    (e : TabEvent) (h : e ∈ s.Events) : e ∈ (RemoveTab s k).2.Events := by
  unfold RemoveTab
  cases hf : s.RegisteredTabsByID.find? (fun p => p.1 == k) with
  | none => exact h
  | some q => exact List.mem_append_left _ h

/-- When the key is registered, `RemoveTab` fires the removal callbacks. -/
theorem removeTab_event_of_contains (s : TabListState) (k : FName)
    (h : s.Contains k = true) :
    TabEvent.Removed k ∈ (RemoveTab s k).2.Events := by
  obtain ⟨p, hp, hpk⟩ := List.any_eq_true.mp h
  unfold RemoveTab
  cases hf : s.RegisteredTabsByID.find? (fun q => q.1 == k) with
  | none => exact absurd (List.find?_eq_none.mp hf p hp) (by simp [hpk])
  | some q => simp

/-- Removing one key does not unregister a different key. -/
theorem removeTab_contains_ne (s : TabListState) (k k' : FName)
    (hne : k' ≠ k) (h : s.Contains k' = true) :
    (RemoveTab s k).2.Contains k' = true := by
  obtain ⟨p, hp, hpk⟩ := List.any_eq_true.mp h
  have hpk' : p.1 = k' := by simpa using hpk
  rw [TabListState.Contains, removeTab_registry]
  refine List.any_eq_true.mpr ⟨p, List.mem_filter.mpr ⟨hp, ?_⟩, hpk⟩
  simp [hpk', hne]

theorem runRemoves_activeTabID (ks : List FName) :
    ∀ s : TabListState, (runRemoves s ks).ActiveTabID = s.ActiveTabID := by
  induction ks with
  | nil => intro s; rfl
  | cons k ks ih =>
    intro s
    calc (runRemoves (RemoveTab s k).2 ks).ActiveTabID
        = (RemoveTab s k).2.ActiveTabID := ih _
      _ = s.ActiveTabID := removeTab_activeTabID s k

theorem runRemoves_listening (ks : List FName) :
    ∀ s : TabListState,
      (runRemoves s ks).bIsListeningForInput = s.bIsListeningForInput := by
  induction ks with
  | nil => intro s; rfl
  | cons k ks ih =>
    intro s
    calc (runRemoves (RemoveTab s k).2 ks).bIsListeningForInput
        = (RemoveTab s k).2.bIsListeningForInput := ih _
      _ = s.bIsListeningForInput := removeTab_listening s k

theorem runRemoves_events_mono (ks : List FName) :
    ∀ (s : TabListState) (e : TabEvent),
      e ∈ s.Events → e ∈ (runRemoves s ks).Events := by
  induction ks with
  | nil => intro s e h; exact h
  | cons k ks ih =>
    intro s e h
    exact ih _ e (removeTab_events_mono s k e h)

/-- Removing every key of the registry empties it. -/
theorem runRemoves_clears (ks : List FName) :
    ∀ s : TabListState, (∀ p ∈ s.RegisteredTabsByID, p.1 ∈ ks) →
      (runRemoves s ks).RegisteredTabsByID = [] := by
  induction ks with
  | nil =>
    intro s h
    have : s.RegisteredTabsByID = [] :=
      List.eq_nil_iff_forall_not_mem.mpr
        (fun p hp => absurd (h p hp) (List.not_mem_nil _))
    show s.RegisteredTabsByID = []
    exact this
  | cons k ks ih =>
    intro s h
    show (runRemoves (RemoveTab s k).2 ks).RegisteredTabsByID = []
    apply ih
    intro p hp
    rw [removeTab_registry] at hp
    have hmem := (List.mem_filter.mp hp).1
    have hne : ¬(p.1 = k) := by
      have := (List.mem_filter.mp hp).2
      simpa using this
    rcases List.mem_cons.mp (h p hmem) with h1 | h2
    · exact absurd h1 hne
    · exact h2

/-- Removal callbacks fire for every key that is registered (or whose
removal was already broadcast) when the removal sweep starts. -/
theorem runRemoves_removed_events (ks : List FName) :
    ∀ s : TabListState,
      (∀ k ∈ ks, s.Contains k = true ∨ TabEvent.Removed k ∈ s.Events) →
      ∀ k ∈ ks, TabEvent.Removed k ∈ (runRemoves s ks).Events := by
  induction ks with
  | nil => intro s _ k hk; exact absurd hk (List.not_mem_nil _)
  | cons k0 ks ih =>
    intro s h k hk
    have hhead : TabEvent.Removed k0 ∈ (RemoveTab s k0).2.Events := by
      rcases h k0 (List.mem_cons_self _ _) with hc | he
      · exact removeTab_event_of_contains s k0 hc
      · exact removeTab_events_mono s k0 _ he
    have hrest : ∀ k' ∈ ks,
        (RemoveTab s k0).2.Contains k' = true ∨
        TabEvent.Removed k' ∈ (RemoveTab s k0).2.Events := by
      intro k' hk'
      rcases h k' (List.mem_cons_of_mem _ hk') with hc | he
      · by_cases hkk : k' = k0
        · subst hkk
          exact Or.inr (removeTab_event_of_contains s k' hc)
        · exact Or.inl (removeTab_contains_ne s k0 k' hkk hc)
      · exact Or.inr (removeTab_events_mono s k0 _ he)
    rcases List.mem_cons.mp hk with h1 | h2
    · subst h1
      exact runRemoves_events_mono ks _ _ hhead
    · exact ih _ hrest k h2

theorem mem_tabKeys_contains (s : TabListState) (k : FName)
    (h : k ∈ s.tabKeys) : s.Contains k = true := by
  obtain ⟨p, hp, hpk⟩ := List.mem_map.mp h
  exact List.any_eq_true.mpr ⟨p, hp, by simp [hpk]⟩

/-- With the UI subsystem still alive, `SetListeningForInput(false)` just
clears the listening flag. -/
theorem setListeningForInput_false (s : TabListState)
    (h : s.hasUISubsystem = true) :
    SetListeningForInput s false = { s with bIsListeningForInput := false } := by
  cases s with
  | mk reg active listening group ui events =>
    cases listening <;> simp_all [SetListeningForInput]

/-- C5: after `NativeDestruct` every previously registered tab has been
removed (`GetTabCount` is zero, with the removal callbacks fired for each
previously registered identifier), the active tab ID is `NAME_None`, and
the widget no longer listens for next/previous-tab input — for every
prior registry state in which the UI subsystem is still alive. -/
theorem nativeDestruct_clears_registry (s : TabListState)
    (h : s.hasUISubsystem = true) :
    GetTabCount (NativeDestruct s) = 0 ∧
    (NativeDestruct s).ActiveTabID = NAME_None ∧
    (NativeDestruct s).bIsListeningForInput = false ∧
    ∀ k ∈ s.tabKeys, TabEvent.Removed k ∈ (NativeDestruct s).Events := by
  have hstep : NativeDestruct s =
      RemoveAllTabs
        { s with bIsListeningForInput := false, ActiveTabID := NAME_None } := by
    unfold NativeDestruct
    rw [setListeningForInput_false s h]
  set s2 : TabListState :=
    { s with bIsListeningForInput := false, ActiveTabID := NAME_None } with hs2
  have hkeys : s2.tabKeys = s.tabKeys := rfl
  refine ⟨?_, ?_, ?_, ?_⟩
  · rw [hstep]
    show (runRemoves s2 s2.tabKeys).RegisteredTabsByID.length = 0
    rw [runRemoves_clears s2.tabKeys s2
      (fun p hp => List.mem_map_of_mem Prod.fst hp)]
    rfl
  · rw [hstep]
    show (runRemoves s2 s2.tabKeys).ActiveTabID = NAME_None
    rw [runRemoves_activeTabID]
  · rw [hstep]
    show (runRemoves s2 s2.tabKeys).bIsListeningForInput = false
    rw [runRemoves_listening]
  · intro k hk
    rw [hstep]
    show TabEvent.Removed k ∈ (runRemoves s2 s2.tabKeys).Events
    refine runRemoves_removed_events s2.tabKeys s2 ?_ k (hkeys ▸ hk)
    intro k' hk'
    exact Or.inl (mem_tabKeys_contains s2 k' hk')

/-- Witness for `nativeDestruct_clears_registry` on a state with two
registered tabs. -/
theorem nativeDestruct_clears_registry_witness :
    GetTabCount
      (NativeDestruct (runTabOps initialTabListState
        [TabOp.Reg 1 (some 1) none, TabOp.Reg 2 (some 1) none])) = 0 ∧
    (NativeDestruct (runTabOps initialTabListState
        [TabOp.Reg 1 (some 1) none, TabOp.Reg 2 (some 1) none])).ActiveTabID
      = NAME_None ∧
    TabEvent.Removed 2 ∈
      (NativeDestruct (runTabOps initialTabListState
        [TabOp.Reg 1 (some 1) none, TabOp.Reg 2 (some 1) none])).Events :=
  ⟨(nativeDestruct_clears_registry _ (by decide)).1,
   (nativeDestruct_clears_registry _ (by decide)).2.1,
   (nativeDestruct_clears_registry
      (runTabOps initialTabListState
        [TabOp.Reg 1 (some 1) none, TabOp.Reg 2 (some 1) none])
      (by decide)).2.2.2 2 (by decide)⟩

/-! ### The leaf-to-root resolution walk -/

/-- On an all-active chain the walk is plain first-non-null search. -/
theorem resolveDesired_all_active (f : RouteNode → Option Nat) :
    ∀ chain : List RouteNode,
      chain.all (fun a => a.bIsActive) = true →
      resolveDesired f chain = chain.findSome? f := by
  intro chain
  induction chain with
  | nil => intro _; rfl
  | cons n rest ih =>
    intro h
    rw [List.all_cons] at h
    have hn := (Bool.and_eq_true_iff.mp h).1
    have hr := (Bool.and_eq_true_iff.mp h).2
    unfold resolveDesired
    rw [hn, hr]
    simp only [Bool.and_self, if_pos]
    cases hf : f n with
    | some v => simp [List.findSome?_cons, hf]
    | none => simp [List.findSome?_cons, hf, ih hr]

/-- The walk only ever answers from the maximal all-active suffix. -/
theorem resolveDesired_eq_activeSuffix (f : RouteNode → Option Nat) :
    ∀ chain : List RouteNode,
      resolveDesired f chain = (activeSuffix chain).findSome? f := by
  intro chain
  induction chain with
  | nil => rfl
  | cons n rest ih =>
    unfold resolveDesired activeSuffix
    by_cases hc : (n.bIsActive && rest.all (fun a => a.bIsActive)) = true
    · rw [if_pos hc, if_pos hc]
      have hr := (Bool.and_eq_true_iff.mp hc).2
      cases hf : f n with
      | some v => simp [List.findSome?_cons, hf]
      | none => simp [List.findSome?_cons, hf, resolveDesired_all_active f rest hr]
    · rw [if_neg hc, if_neg hc]
      exact ih

/-- Every node of the maximal all-active suffix is active. -/
theorem activeSuffix_active :
    ∀ chain : List RouteNode, ∀ n ∈ activeSuffix chain, n.bIsActive = true := by
  intro chain
  induction chain with
  | nil => intro n hn; exact absurd hn (List.not_mem_nil _)
  | cons m rest ih =>
    intro n hn
    unfold activeSuffix at hn
    by_cases hc : (m.bIsActive && rest.all (fun a => a.bIsActive)) = true
    · rw [if_pos hc] at hn
      rcases List.mem_cons.mp hn with h1 | h2
      · subst h1; exact (Bool.and_eq_true_iff.mp hc).1
      · exact List.all_eq_true.mp (Bool.and_eq_true_iff.mp hc).2 n h2
    · rw [if_neg hc] at hn
      exact ih n hn

/-- C6: the desired input configuration and desired focus target that take
effect are the first non-null answers found when walking the ancestor
chain from the leaf toward the root, and only nodes that can receive
input — nodes all of whose parents are also active, i.e. the maximal
all-active suffix of the chain — are consulted. -/
theorem resolution_walk_leaf_to_root (chain : List RouteNode) :
    resolveInputConfig chain =
      (activeSuffix chain).findSome? (fun n => n.DesiredInputConfig) ∧
    resolveFocusTarget chain =
      (activeSuffix chain).findSome? (fun n => n.DesiredFocusTarget) ∧
    ∀ n ∈ activeSuffix chain, n.bIsActive = true :=
  ⟨resolveDesired_eq_activeSuffix _ chain,
   resolveDesired_eq_activeSuffix _ chain,
   activeSuffix_active chain⟩

/-- Witness for `resolution_walk_leaf_to_root` at a concrete chain: an
inactive leaf is skipped, and the active parent supplies the first
non-null input configuration. -/
theorem resolution_walk_leaf_to_root_witness :
    resolveInputConfig
      [⟨false, false, some 9, none⟩, ⟨true, false, some 5, some 7⟩]
      = some 5 ∧
    (⟨true, false, some 5, some 7⟩ : RouteNode).bIsActive = true :=
  ⟨by
    rw [(resolution_walk_leaf_to_root
      [⟨false, false, some 9, none⟩, ⟨true, false, some 5, some 7⟩]).1]
    decide,
   (resolution_walk_leaf_to_root
      [⟨false, false, some 9, none⟩, ⟨true, false, some 5, some 7⟩]).2.2
     ⟨true, false, some 5, some 7⟩ (by decide)⟩

/-! ### Modal blocking -/

/-- Routing visits only nodes of the chain. -/
theorem routeReach_mem :
    ∀ chain : List RouteNode, ∀ a ∈ routeReach chain, a ∈ chain := by
  intro chain
  induction chain with
  | nil => intro a ha; exact absurd ha (List.not_mem_nil _)
  | cons n rest ih =>
    intro a ha
    unfold routeReach at ha
    by_cases hc : (n.bIsActive && n.bIsModal) = true
    · rw [if_pos hc] at ha
      rcases List.mem_singleton.mp ha with h1
      subst h1; exact List.mem_cons_self _ _
    · rw [if_neg hc] at ha
      rcases List.mem_cons.mp ha with h1 | h2
      · subst h1; exact List.mem_cons_self _ _
      · exact List.mem_cons_of_mem _ (ih a h2)

/-- C8: while a modal node is active, input routing never reaches any of
its ancestors: the nodes visited are the same whatever lies above the
modal node, and every visited node lies at or below it. -/
theorem modal_blocks_ancestors (pre post : List RouteNode) (n : RouteNode)
    (ha : n.bIsActive = true) (hm : n.bIsModal = true) :
    routeReach (pre ++ n :: post) = routeReach (pre ++ [n]) ∧
    ∀ a ∈ routeReach (pre ++ n :: post), a ∈ pre ++ [n] := by
  have key : routeReach (pre ++ n :: post) = routeReach (pre ++ [n]) := by
    induction pre with
    | nil =>
      show routeReach (n :: post) = routeReach [n]
      unfold routeReach
      rw [ha, hm]
      rfl
    | cons p pre ih =>
      show routeReach (p :: (pre ++ n :: post)) = routeReach (p :: (pre ++ [n]))
      unfold routeReach
      by_cases hc : (p.bIsActive && p.bIsModal) = true
      · rw [if_pos hc, if_pos hc]
      · rw [if_neg hc, if_neg hc, ih]
  refine ⟨key, ?_⟩
  intro a hma
  rw [key] at hma
  exact routeReach_mem _ a hma

/-- Witness for `modal_blocks_ancestors` at a concrete chain: an active
modal dialog under an active screen; the screen above the modal is not
reached. -/
theorem modal_blocks_ancestors_witness :
    routeReach
      [⟨true, false, none, none⟩, ⟨true, true, none, none⟩,
       ⟨true, false, some 3, none⟩] =
      routeReach [⟨true, false, none, none⟩, ⟨true, true, none, none⟩] :=
  (modal_blocks_ancestors [⟨true, false, none, none⟩]
    [⟨true, false, some 3, none⟩] ⟨true, true, none, none⟩ rfl rfl).1

/-! ### Input-method thrashing -/

/-- The thrashing check never touches the current input type by itself. -/
theorem checkThrashing_currentInputType (s : InputSubsystemState) (now : Nat) :
    (CheckForInputMethodThrashing s now).2.CurrentInputType =
      s.CurrentInputType := by
  simp only [CheckForInputMethodThrashing]
  split_ifs <;> rfl

/-- C3: thrashing detection.  (i) When another input-method transition
arrives inside the sliding window and the transition count has already
reached the threshold, the change is suppressed and the force-lock is
engaged, timestamped now.  (ii) While the lock is engaged and the window
since thrashing began has not elapsed, every change is suppressed: the
current input type stays.  (iii) Once the window has elapsed with no
further changes, the next change is accepted and the lock is released. -/
theorem inputMethodThrashing_lock (s : InputSubsystemState) (now : Nat)
    (ty : ECommonInputType) :
    (now < s.LastInputMethodChangeTime + InputMethodThrashingWindow →
     InputMethodThrashingLimit ≤ s.NumberOfInputMethodChangesRecently →
     ty ≠ s.CurrentInputType →
       (SetCurrentInputType s now ty).CurrentInputType = s.CurrentInputType ∧
       (SetCurrentInputType s now ty).bInputMethodThrashing = true ∧
       (SetCurrentInputType s now ty).LastTimeInputMethodThrashingBegan = now) ∧
    (s.bInputMethodThrashing = true →
     now < s.LastTimeInputMethodThrashingBegan + InputMethodThrashingWindow →
       (SetCurrentInputType s now ty).CurrentInputType = s.CurrentInputType) ∧
    (s.LastTimeInputMethodThrashingBegan + InputMethodThrashingWindow ≤ now →
     s.LastInputMethodChangeTime + InputMethodThrashingWindow ≤ now →
     ty ≠ s.CurrentInputType →
       (SetCurrentInputType s now ty).CurrentInputType = ty ∧
       (SetCurrentInputType s now ty).bInputMethodThrashing = false) := by
  refine ⟨?_, ?_, ?_⟩
  · intro hw hn hty
    have h1 : ¬(s.LastInputMethodChangeTime + InputMethodThrashingWindow ≤ now) := by
      omega
    have h2 : InputMethodThrashingLimit <
        s.NumberOfInputMethodChangesRecently + 1 := by omega
    have hcheck : CheckForInputMethodThrashing s now =
        (true,
          { s with
              NumberOfInputMethodChangesRecently :=
                s.NumberOfInputMethodChangesRecently + 1
              LastInputMethodChangeTime := now
              bInputMethodThrashing := true
              LastTimeInputMethodThrashingBegan := now }) := by
      simp only [CheckForInputMethodThrashing, if_neg h1, if_pos h2]
    simp only [SetCurrentInputType, if_neg hty, hcheck]
    exact ⟨rfl, rfl, rfl⟩
  · intro hth hwin
    by_cases hty : ty = s.CurrentInputType
    · simp [SetCurrentInputType, hty]
    · have hr1 : (CheckForInputMethodThrashing s now).1 = true := by
        simp only [CheckForInputMethodThrashing]
        split
        · rfl
        · simp only [hth, if_pos hwin]
          split <;> rfl
      simp only [SetCurrentInputType, if_neg hty, hr1]
      simp [checkThrashing_currentInputType s now]
  · intro hbw hcw hty
    have h0 : ¬(InputMethodThrashingLimit < 0 + 1) := by decide
    have hnb : ¬(now < s.LastTimeInputMethodThrashingBegan +
        InputMethodThrashingWindow) := by omega
    have hr : CheckForInputMethodThrashing s now =
        (false,
          { s with
              NumberOfInputMethodChangesRecently := 1
              LastInputMethodChangeTime := now
              bInputMethodThrashing := false }) := by
      simp only [CheckForInputMethodThrashing, if_pos hcw, if_neg h0]
      cases hb : s.bInputMethodThrashing <;> simp [hb, hnb]
    simp only [SetCurrentInputType, if_neg hty, hr]
    exact ⟨rfl, rfl⟩

/-- Witness for `inputMethodThrashing_lock` at concrete states: a sixth
rapid transition engages the lock; a change during the lock window is
suppressed; a change after the window is accepted and releases the lock. -/
theorem inputMethodThrashing_lock_witness :
    (SetCurrentInputType
        ⟨ECommonInputType.Gamepad, 5, 10, 0, false⟩ 11
        ECommonInputType.MouseAndKeyboard).CurrentInputType
      = ECommonInputType.Gamepad ∧
    (SetCurrentInputType
        ⟨ECommonInputType.Gamepad, 5, 10, 0, false⟩ 11
        ECommonInputType.MouseAndKeyboard).bInputMethodThrashing = true ∧
    (SetCurrentInputType
        ⟨ECommonInputType.Gamepad, 6, 11, 11, true⟩ 12
        ECommonInputType.Touch).CurrentInputType
      = ECommonInputType.Gamepad ∧
    (SetCurrentInputType
        ⟨ECommonInputType.Gamepad, 6, 11, 11, true⟩ 14
        ECommonInputType.Touch).CurrentInputType
      = ECommonInputType.Touch ∧
    (SetCurrentInputType
        ⟨ECommonInputType.Gamepad, 6, 11, 11, true⟩ 14
        ECommonInputType.Touch).bInputMethodThrashing = false :=
  ⟨((inputMethodThrashing_lock
      ⟨ECommonInputType.Gamepad, 5, 10, 0, false⟩ 11
      ECommonInputType.MouseAndKeyboard).1
      (by decide) (by decide) (by decide)).1,
   ((inputMethodThrashing_lock
      ⟨ECommonInputType.Gamepad, 5, 10, 0, false⟩ 11
      ECommonInputType.MouseAndKeyboard).1
      (by decide) (by decide) (by decide)).2.1,
   (inputMethodThrashing_lock
      ⟨ECommonInputType.Gamepad, 6, 11, 11, true⟩ 12
      ECommonInputType.Touch).2.1 rfl (by decide),
   ((inputMethodThrashing_lock
      ⟨ECommonInputType.Gamepad, 6, 11, 11, true⟩ 14
      ECommonInputType.Touch).2.2
      (by decide) (by decide) (by decide)).1,
   ((inputMethodThrashing_lock
      ⟨ECommonInputType.Gamepad, 6, 11, 11, true⟩ 14
      ECommonInputType.Touch).2.2
      (by decide) (by decide) (by decide)).2⟩

end CommonUI
